import Mathlib

/-!
# Verification of the gitmoni status-refresh core

Shallow embedding of the gitmoni repository (gocui edition): the git status
probe (`checkGitStatus`, `checkRemoteStatus`, `fetchRemoteUpdates` from
git.go), the concurrent refresh orchestration (`fetchRemotesAsync`,
`spinnerTick` from main.go) and the configuration operations (`loadConfig`,
`addRepositoryWithPath`, `removeRepository`, `addRepositoryFromCommandLine`
from config.go / main.go).

External effects (subprocess outputs of the `git` commands, the filesystem,
`filepath.Abs`, JSON unmarshalling) are modelled by explicit environment
records passed to the embedded functions; each `Except String String` field
is the result of `cmd.Output()` for the corresponding git invocation
(`.error e` models a failing command whose Go error message is `e`).
-/

/-- One parsed entry of `git status --porcelain` output (git.go `GitFile`). -/
structure GitFile where
  path : String
  status : String
deriving DecidableEq, Repr

/-- Result record of the status probe (git.go `GitStatus`).  Field defaults
are Go's zero values, as in the struct literal at the top of
`checkGitStatus`. -/
structure GitStatus where
  path : String := ""
  files : List GitFile := []
  isRepo : Bool := false
  hasError : Bool := false
  error : String := ""
  hasRemote : Bool := false
  needsPull : Bool := false
  remoteStatus : String := ""
deriving DecidableEq, Repr

instance {ε α : Type} [DecidableEq ε] [DecidableEq α] : DecidableEq (Except ε α)
  | .error a, .error b =>
    if h : a = b then .isTrue (by rw [h]) else .isFalse (by simp [h])
  | .error _, .ok _ => .isFalse (by simp)
  | .ok _, .error _ => .isFalse (by simp)
  | .ok a, .ok b =>
    if h : a = b then .isTrue (by rw [h]) else .isFalse (by simp [h])

/-- Environment of one repository: outcomes of the external `git`
subprocesses and of the `.git` stat probe used by `isGitRepository`. -/
structure GitEnv where
  gitDirExists : Bool
  statusOut : Except String String
  remoteOut : Except String String
  branchOut : Except String String
  upstreamOut : Except String String
  behindOut : Except String String
  fetchResult : Except String Unit
deriving DecidableEq, Repr

/-- git.go `isGitRepository`: `os.Stat(filepath.Join(path, ".git"))`
succeeds. -/
def isGitRepository (env : GitEnv) : Bool :=
  env.gitDirExists

/-! The Go string functions used by the probe (`strings.TrimSpace`,
`strings.Split(s, "\n")`, `strings.HasPrefix/HasSuffix`, slicing) are
spelled out charwise by structural recursion so that every definition is
kernel-executable. -/

/-- Go `unicode.IsSpace` on the ASCII fragment the porcelain format uses. -/
def isSpaceChar (c : Char) : Bool :=
  c.isWhitespace

/-- Go `strings.TrimSpace` on the underlying character list. -/
def trimChars (l : List Char) : List Char :=
  ((l.dropWhile isSpaceChar).reverse.dropWhile isSpaceChar).reverse

/-- Go `strings.TrimSpace`. -/
def goTrim (s : String) : String :=
  ⟨trimChars s.data⟩

/-- Go `strings.Split(s, "\n")` on the underlying character list: one piece
per newline-separated segment, `[[]]` for the empty string. -/
def splitLinesChars : List Char → List (List Char)
  | [] => [[]]
  | c :: rest =>
    if c = '\n' then [] :: splitLinesChars rest
    else
      match splitLinesChars rest with
      | [] => [[c]]
      | l :: ls => (c :: l) :: ls

/-- Go `strings.Split(s, "\n")`. -/
def goSplitLines (s : String) : List String :=
  (splitLinesChars s.data).map String.mk

/-- The quote-stripping step of the porcelain parse loop (git.go
`checkGitStatus`): when `strings.HasPrefix(path, "\"")` and
`strings.HasSuffix(path, "\"")`, take `path[1 : len(path)-1]`. -/
def stripQuotes (path : String) : String :=
  if path.data.head? = some '"' ∧ path.data.getLast? = some '"' then
    ⟨(path.data.drop 1).dropLast⟩
  else
    path

/-- One iteration body of the porcelain parse loop: status code is
`strings.TrimSpace(line[:2])`, path is `strings.TrimSpace(line[2:])` with
surrounding quotes removed. -/
def statusLineEntry (line : String) : GitFile :=
  { path := stripQuotes (goTrim ⟨line.data.drop 2⟩),
    status := goTrim ⟨line.data.take 2⟩ }

/-- The porcelain parse loop of git.go `checkGitStatus`:
`strings.Split(strings.TrimSpace(output), "\n")`, skipping empty lines,
parsing lines of length (`len`) at least 3, appending in order. -/
def parsePorcelain (output : String) : List GitFile :=
  (goSplitLines (goTrim output)).foldl
    (fun acc line =>
      if line = "" then acc
      else if line.length ≥ 3 then acc ++ [statusLineEntry line]
      else acc) []

/-- git.go `checkRemoteStatus`: fills the remote-comparison fields of a
`GitStatus` from the `git remote` / `git branch --show-current` /
`git rev-parse @{upstream}` / `git rev-list --count` outputs. -/
def checkRemoteStatus (status : GitStatus) (env : GitEnv) : GitStatus :=
  match env.remoteOut with
  | .error _ => { status with hasRemote := false }
  | .ok remoteOut =>
    if goTrim remoteOut = "" then { status with hasRemote := false }
    else
      let status := { status with hasRemote := true }
      match env.branchOut with
      | .error _ => { status with remoteStatus := "Unable to get current branch" }
      | .ok branchOut =>
        let currentBranch := goTrim branchOut
        if currentBranch = "" then { status with remoteStatus := "No current branch" }
        else
          match env.upstreamOut with
          | .error _ => { status with remoteStatus := "No upstream branch" }
          | .ok _ =>
            match env.behindOut with
            | .error _ => { status with remoteStatus := "Unable to check remote status" }
            | .ok behindOut =>
              let behindCount := goTrim behindOut
              if behindCount ≠ "0" then
                { status with needsPull := true,
                              remoteStatus := behindCount ++ " commits behind" }
              else
                { status with needsPull := false, remoteStatus := "Up to date" }

/-- git.go `checkGitStatus`: the status probe for one repository. -/
def checkGitStatus (repoPath : String) (env : GitEnv) : GitStatus :=
  let result : GitStatus := { path := repoPath, files := [], isRepo := false }
  if !isGitRepository env then
    { result with hasError := true, error := "Not a git repository" }
  else
    match env.statusOut with
    | .error e => { result with isRepo := true, hasError := true, error := e }
    | .ok output =>
      checkRemoteStatus { result with isRepo := true, files := parsePorcelain output } env

/-- git.go `fetchRemoteUpdates`: `git fetch --quiet`, returning the
subprocess outcome. -/
def fetchRemoteUpdates (env : GitEnv) : Except String Unit :=
  env.fetchResult

/-! ## The shared registry (main.go `App`)

The Go map `a.gitStatuses : map[string]GitStatus` is modelled as an
association list read through `List.lookup` (an update shadows the old
binding); the Go set `a.fetchingRepos : map[string]bool` is modelled as a
duplicate-free list of its keys. -/

/-- Go map assignment `a.gitStatuses[r] = v`. -/
def mapInsert (m : List (String × GitStatus)) (k : String) (v : GitStatus) :
    List (String × GitStatus) :=
  (k, v) :: m

/-- Go map read `a.gitStatuses[r]`. -/
def mapLookup (m : List (String × GitStatus)) (k : String) : Option GitStatus :=
  m.lookup k

/-- Go set insertion `a.fetchingRepos[r] = true`. -/
def setInsert (s : List String) (r : String) : List String :=
  if r ∈ s then s else r :: s

/-- The mutex-protected shared state of main.go `App`: `gitStatuses`,
`fetchingRepos` and `isFetching`. -/
structure AppState where
  gitStatuses : List (String × GitStatus)
  fetchingRepos : List String
  isFetching : Bool
deriving DecidableEq, Repr

/-- First critical section of main.go `fetchRemotesAsync`: mark every
configured repository as fetching under one `a.mu.Lock()`. -/
def beginAll (repos : List String) (st : AppState) : AppState :=
  { st with fetchingRepos := repos.foldl setInsert st.fetchingRepos }

/-- The body of one worker goroutine of main.go `fetchRemotesAsync`
(lines 276-285): run the best-effort fetch, whose outcome is discarded,
then — in a single critical section under `a.mu` — write the probe result
into `a.gitStatuses[r]` and delete `r` from `a.fetchingRepos`. -/
def refreshWorker (env : String → GitEnv) (r : String) (st : AppState) : AppState :=
  let _ := fetchRemoteUpdates (env r)
  { st with
    gitStatuses := mapInsert st.gitStatuses r (checkGitStatus r (env r)),
    fetchingRepos := st.fetchingRepos.erase r }

/-- Last critical section of main.go `fetchRemotesAsync`: after the wait
group, clear the global `isFetching` flag. -/
def finishAll (st : AppState) : AppState :=
  { st with isFetching := false }

/-- Interleaving semantics of the worker phase of `fetchRemotesAsync`:
each constructor is one mutex-protected critical section, executed
atomically (that is exactly what holding `a.mu` for its whole extent
guarantees).  A `work r` step may fire only for a repository of the batch
that is still flagged as fetching, as each dispatched worker completes
exactly once. -/
inductive WorkerStep (repos : List String) (env : String → GitEnv) :
    AppState → AppState → Prop
  | work (r : String) (st : AppState) (hr : r ∈ repos) (hf : r ∈ st.fetchingRepos) :
      WorkerStep repos env st (refreshWorker env r st)
  | finish (st : AppState) : WorkerStep repos env st (finishAll st)

/-- One iteration of the main.go `spinnerTick` loop after its sleep:
under the mutex, check `a.isFetching || len(a.fetchingRepos) > 0`; if the
check passes, advance `a.spinnerFrame` and emit a redraw request
(`g.Update`), otherwise do nothing.  Returns the new frame counter and
whether a redraw was emitted. -/
def spinnerTickOnce (st : AppState) (spinnerFrame : Nat) : Nat × Bool :=
  if st.isFetching || st.fetchingRepos.length > 0 then
    (spinnerFrame + 1, true)
  else
    (spinnerFrame, false)

/-! ## Configuration (config.go) -/

/-- config.go `Config`. -/
structure Config where
  repositories : List String
  enterCommandBinary : String
deriving DecidableEq, Repr

/-- A parsed JSON configuration document: `json.Unmarshal` writes only the
fields present in the document, so a parse result is a pair of optional
fields. -/
structure ConfigDoc where
  repositories : Option (List String) := none
  enterCommandBinary : Option String := none
deriving DecidableEq, Repr

/-- `json.Unmarshal(data, config)` merging semantics: fields present in the
document replace the current values, absent fields are left alone. -/
def unmarshalInto (c : Config) (doc : ConfigDoc) : Config :=
  { repositories := doc.repositories.getD c.repositories,
    enterCommandBinary := doc.enterCommandBinary.getD c.enterCommandBinary }

/-- Filesystem environment of `loadConfig`: the `os.ReadFile` results for
`.gitmoni.json` in the current directory and in the home directory
(`none` models a failing read). -/
structure ConfigEnv where
  cwdFile : Option String
  homeFile : Option String

/-- The candidate loop of config.go `loadConfig`: first file that both
reads and unmarshals successfully wins; a read or parse failure moves on
to the next candidate.  `parse` is the `json.Unmarshal` oracle (`none`
models malformed JSON, in which case the config is left unchanged). -/
def loadConfigFrom (parse : String → Option ConfigDoc) (config : Config) :
    List (Option String) → Config
  | [] => config
  | cand :: rest =>
    match cand with
    | some data =>
      match parse data with
      | some doc => unmarshalInto config doc
      | none => loadConfigFrom parse config rest
    | none => loadConfigFrom parse config rest

/-- config.go `loadConfig`: start from the defaults (empty repository list,
`"lazygit"` command), try the current directory then the home directory,
and always return with a `nil` error. -/
def loadConfig (parse : String → Option ConfigDoc) (env : ConfigEnv) :
    Except String Config :=
  .ok (loadConfigFrom parse
        { repositories := [], enterCommandBinary := "lazygit" }
        [env.cwdFile, env.homeFile])

/-- `filepath.Abs` with config.go's fallback: on error, fall back to the
original path. -/
def absOf (abs : String → Option String) (p : String) : String :=
  (abs p).getD p

/-- config.go `addRepositoryWithPath`: absolutise the path, scan for a
duplicate by absolute form (returning `false` at the first match), else
append the absolute path and return `true`. -/
def addRepositoryWithPath (abs : String → Option String) (c : Config)
    (path : String) : Config × Bool :=
  let absPath := absOf abs path
  if c.repositories.any (fun repo => absOf abs repo = absPath) then
    (c, false)
  else
    ({ c with repositories := c.repositories ++ [absPath] }, true)

/-- The scan-and-delete loop of config.go `removeRepository`: Go's
`append(repos[:i], repos[i+1:]...)` at the first index whose absolute form
matches; `none` when no element matches. -/
def removeMatch (abs : String → Option String) (absPath : String) :
    List String → Option (List String)
  | [] => none
  | repo :: rest =>
    if absOf abs repo = absPath then some rest
    else (removeMatch abs absPath rest).map (repo :: ·)

/-- config.go `removeRepository`. -/
def removeRepository (abs : String → Option String) (c : Config)
    (path : String) : Config × Bool :=
  let absPath := absOf abs path
  match removeMatch abs absPath c.repositories with
  | some l => ({ c with repositories := l }, true)
  | none => (c, false)

/-! ## CLI add command (main.go `addRepositoryFromCommandLine`) -/

/-- Environment of the CLI add command: configuration files and JSON
oracle for `loadConfig`, the `filepath.Abs` oracle, the `os.Stat`
existence probes, and whether `saveConfig` succeeds. -/
structure CLIEnv where
  parse : String → Option ConfigDoc
  configFiles : ConfigEnv
  abs : String → Option String
  dirExists : String → Bool
  gitDirExists : String → Bool
  saveOk : Bool

/-- main.go `addRepositoryFromCommandLine`: load the config, absolutise the
argument, check the directory and its `.git` entry exist, then add with
duplicate checking; on a duplicate, print an informational message and
return `nil`.  The `.ok` payload is the in-memory config after the call
together with the message printed to the user. -/
def addRepositoryFromCommandLine (env : CLIEnv) (path : String) :
    Except String (Config × String) :=
  match loadConfig env.parse env.configFiles with
  | .error e => .error ("failed to load config: " ++ e)
  | .ok config =>
    match env.abs path with
    | none => .error "failed to resolve absolute path"
    | some absPath =>
      if !env.dirExists absPath then
        .error ("directory does not exist: " ++ absPath)
      else if !env.gitDirExists absPath then
        .error ("not a git repository: " ++ absPath)
      else
        let res := addRepositoryWithPath env.abs config absPath
        if res.2 then
          if env.saveOk then .ok (res.1, "Added repository: " ++ absPath)
          else .error "failed to save config"
        else
          .ok (res.1, "Repository already exists: " ++ absPath)

/-- main.go `main` around the `-a` flag: a `nil` error from
`addRepositoryFromCommandLine` means a plain return (exit code 0), an
error is printed and the process exits with code 1. -/
def addCommandExitCode (env : CLIEnv) (path : String) : Nat :=
  match addRepositoryFromCommandLine env path with
  | .ok _ => 0
  | .error _ => 1

/-! ## Concrete witness environments -/

/-- A per-repository environment whose `.git` stat probe fails. -/
def envNoRepo : GitEnv :=
  { gitDirExists := false, statusOut := .error "not run",
    remoteOut := .error "not run", branchOut := .error "not run",
    upstreamOut := .error "not run", behindOut := .error "not run",
    fetchResult := .ok () }

/-- A clean repository with one modified and one untracked file, no remote
configured. -/
def envTwoFiles : GitEnv :=
  { gitDirExists := true, statusOut := .ok " M main.go\n?? new.txt",
    remoteOut := .ok "", branchOut := .error "not run",
    upstreamOut := .error "not run", behindOut := .error "not run",
    fetchResult := .ok () }

/-- A clean repository three commits behind its upstream. -/
def envBehind3 : GitEnv :=
  { gitDirExists := true, statusOut := .ok "", remoteOut := .ok "origin\n",
    branchOut := .ok "main\n", upstreamOut := .ok "origin/main\n",
    behindOut := .ok "3\n", fetchResult := .ok () }

/-- A repository with no remote configured: `git remote` succeeds with
empty output. -/
def envNoRemote : GitEnv :=
  { gitDirExists := true, statusOut := .ok "", remoteOut := .ok "",
    branchOut := .error "not run", upstreamOut := .error "not run",
    behindOut := .error "not run", fetchResult := .ok () }

/-- The per-line parse of the porcelain output as the specification words
it: a non-empty line of length at least 3 becomes an entry whose status
code is the trimmed first two characters and whose path is the rest
(whitespace-trimmed) with surrounding double quotes stripped; other lines
produce nothing. -/
def specStatusEntries (output : String) : List GitFile :=
  (goSplitLines (goTrim output)).filterMap fun line =>
    if ¬ line = "" ∧ line.length ≥ 3 then some (statusLineEntry line)
    else none

/-- A concrete CLI environment whose configuration already contains
"/repo"; `filepath.Abs` is the identity oracle. -/
def cliEnvDup : CLIEnv :=
  { parse := fun _ =>
      some { repositories := some ["/repo"], enterCommandBinary := none },
    configFiles := { cwdFile := some "cfg", homeFile := none },
    abs := fun s => some s,
    dirExists := fun _ => true,
    gitDirExists := fun _ => true,
    saveOk := true }

/-! ## Helper lemmas -/

/-- `checkRemoteStatus` only writes the remote-comparison fields: the
changed-file list is untouched. -/
theorem checkRemoteStatus_files (st : GitStatus) (env : GitEnv) :
    (checkRemoteStatus st env).files = st.files := by
  unfold checkRemoteStatus
  cases env.remoteOut with
  | error e => rfl
  | ok ro =>
    dsimp only
    split
    · rfl
    · cases env.branchOut with
      | error e => rfl
      | ok bo =>
        dsimp only
        split
        · rfl
        · cases env.upstreamOut with
          | error e => rfl
          | ok uo =>
            cases env.behindOut with
            | error e => rfl
            | ok co =>
              dsimp only
              split <;> rfl

/-- `checkRemoteStatus` never touches the error flag. -/
theorem checkRemoteStatus_hasError (st : GitStatus) (env : GitEnv) :
    (checkRemoteStatus st env).hasError = st.hasError := by
  unfold checkRemoteStatus
  cases env.remoteOut with
  | error e => rfl
  | ok ro =>
    dsimp only
    split
    · rfl
    · cases env.branchOut with
      | error e => rfl
      | ok bo =>
        dsimp only
        split
        · rfl
        · cases env.upstreamOut with
          | error e => rfl
          | ok uo =>
            cases env.behindOut with
            | error e => rfl
            | ok co =>
              dsimp only
              split <;> rfl

theorem mapLookup_insert_self (m : List (String × GitStatus)) (k : String)
    (v : GitStatus) : mapLookup (mapInsert m k v) k = some v := by
  simp [mapLookup, mapInsert, List.lookup]

theorem mapLookup_insert_other (m : List (String × GitStatus)) (k k' : String)
    (v : GitStatus) (h : k' ≠ k) :
    mapLookup (mapInsert m k v) k' = mapLookup m k' := by
  have hbeq : (k' == k) = false := beq_eq_false_iff_ne.mpr h
  simp [mapLookup, mapInsert, List.lookup, hbeq]

/-! ## C5: probing a non-repository -/

/-- C5: for every path that is not a version-controlled repository (no
`.git` entry present), the status probe returns a snapshot with
`hasError = true`, the descriptive message "Not a git repository" and an
empty file list, and writing that snapshot into the registry map leaves
every other repository's record unchanged. -/
theorem claim5_not_a_repo (path : String) (env : GitEnv)
    (h : env.gitDirExists = false) :
    (checkGitStatus path env).hasError = true ∧
    (checkGitStatus path env).error = "Not a git repository" ∧
    (checkGitStatus path env).files = [] ∧
    ∀ (m : List (String × GitStatus)) (other : String), other ≠ path →
      mapLookup (mapInsert m path (checkGitStatus path env)) other =
        mapLookup m other := by
  refine ⟨?_, ?_, ?_, ?_⟩ <;>
    first
      | (intro m other hne; exact mapLookup_insert_other m path other _ hne)
      | simp [checkGitStatus, isGitRepository, h]

/-- C5 witness: a concrete non-repository path, probed and written into a
registry that holds one other repository. -/
theorem claim5_witness :
    (checkGitStatus "/x" envNoRepo).hasError = true ∧
    (checkGitStatus "/x" envNoRepo).error = "Not a git repository" ∧
    (checkGitStatus "/x" envNoRepo).files = [] ∧
    mapLookup (mapInsert [("/y", {})] "/x" (checkGitStatus "/x" envNoRepo)) "/y" =
      mapLookup [("/y", {})] "/y" :=
  ⟨(claim5_not_a_repo "/x" envNoRepo rfl).1,
   (claim5_not_a_repo "/x" envNoRepo rfl).2.1,
   (claim5_not_a_repo "/x" envNoRepo rfl).2.2.1,
   (claim5_not_a_repo "/x" envNoRepo rfl).2.2.2 [("/y", {})] "/y" (by decide)⟩

/-! ## C6: the fetch outcome is discarded -/

/-- C6: the worker discards the best-effort fetch outcome.  Replacing every
repository's `fetchResult` by an arbitrary other outcome leaves the
worker's effect on the registry unchanged, and the snapshot the worker
writes is exactly `checkGitStatus` — the same status probe whether the
fetch succeeded or failed. -/
theorem claim6_fetch_discarded (env : String → GitEnv)
    (fr : String → Except String Unit) (r : String) (st : AppState) :
    refreshWorker (fun s => { env s with fetchResult := fr s }) r st =
      refreshWorker env r st ∧
    (refreshWorker env r st).gitStatuses =
      mapInsert st.gitStatuses r (checkGitStatus r (env r)) ∧
    (refreshWorker env r st).fetchingRepos = st.fetchingRepos.erase r :=
  ⟨rfl, rfl, rfl⟩

/-! ## C7: the progress clock is silent when idle -/

/-- C7: a tick of the spinner loop taken while no refresh is outstanding
(`isFetching = false` and no repository flagged) advances no animation
frame and emits no redraw request. -/
theorem claim7_idle_tick_silent (st : AppState) (frame : Nat)
    (hFetch : st.isFetching = false) (hRepos : st.fetchingRepos = []) :
    spinnerTickOnce st frame = (frame, false) := by
  simp [spinnerTickOnce, hFetch, hRepos]

/-- C7 witness: a concrete idle state. -/
theorem claim7_witness :
    spinnerTickOnce { gitStatuses := [], fetchingRepos := [], isFetching := false } 5 =
      (5, false) :=
  claim7_idle_tick_silent _ 5 rfl rfl

/-! ## C2: porcelain parsing -/

/-- The porcelain parse loop, written as an in-order per-line `filterMap`:
this is the shape the specification describes. -/
theorem parsePorcelain_eq_spec (output : String) :
    parsePorcelain output = specStatusEntries output := by
  unfold parsePorcelain specStatusEntries
  generalize goSplitLines (goTrim output) = lines
  have h : ∀ (l : List String) (acc : List GitFile),
      l.foldl
        (fun acc line =>
          if line = "" then acc
          else if line.length ≥ 3 then acc ++ [statusLineEntry line]
          else acc) acc
        = acc ++ l.filterMap
            (fun line =>
              if ¬ line = "" ∧ line.length ≥ 3 then
                some (statusLineEntry line)
              else none) := by
    intro l
    induction l with
    | nil => simp
    | cons x xs ih =>
      intro acc
      by_cases h1 : x = ""
      · simp [h1, ih]
      · by_cases h2 : x.length ≥ 3
        · simp [h1, h2, ih]
        · simp [h1, h2, ih]
  simpa using h lines []

/-- C2: a successful status probe parses each non-empty porcelain line of
length at least 3 into an entry (trimmed two-character status code, rest of
the line with surrounding quotes stripped as the path), in line order,
skipping everything else; empty output yields an empty entry list; and the
concrete modified-plus-untracked scenario yields exactly the entries
"M" and "??" in reported order. -/
theorem claim2_porcelain_parse (path : String) (env : GitEnv) (output : String)
    (hgit : env.gitDirExists = true) (hstatus : env.statusOut = .ok output) :
    (checkGitStatus path env).files = specStatusEntries output ∧
    (output = "" → (checkGitStatus path env).files = []) ∧
    (checkGitStatus "/repo" envTwoFiles).files =
      [{ path := "main.go", status := "M" }, { path := "new.txt", status := "??" }] := by
  have hf : (checkGitStatus path env).files = parsePorcelain output := by
    simp [checkGitStatus, isGitRepository, hgit, hstatus, checkRemoteStatus_files]
  refine ⟨?_, ?_, ?_⟩
  · rw [hf, parsePorcelain_eq_spec]
  · intro h
    subst h
    rw [hf]
    decide
  · decide

/-- C2 witness: the concrete two-file scenario and a concrete empty
output. -/
theorem claim2_witness :
    (checkGitStatus "/repo" envTwoFiles).files =
      specStatusEntries " M main.go\n?? new.txt" ∧
    (checkGitStatus "/clean" envNoRemote).files = [] :=
  ⟨(claim2_porcelain_parse "/repo" envTwoFiles " M main.go\n?? new.txt" rfl rfl).1,
   (claim2_porcelain_parse "/clean" envNoRemote "" rfl rfl).2.1 rfl⟩

/-! ## C3: behind count -/

/-- `Nat.toDigitsCore` always prepends at least one digit to its
accumulator when it has fuel. -/
theorem toDigitsCore_shape (b : Nat) :
    ∀ (f n : Nat) (ds : List Char),
      ∃ l, Nat.toDigitsCore b f n ds = l ++ ds ∧ (0 < f → l ≠ []) := by
  intro f
  induction f with
  | zero =>
    intro n ds
    exact ⟨[], rfl, fun h => absurd h (by omega)⟩
  | succ f ih =>
    intro n ds
    unfold Nat.toDigitsCore
    by_cases h : n / b = 0
    · refine ⟨[Nat.digitChar (n % b)], ?_, fun _ => by simp⟩
      simp [h]
    · obtain ⟨l, hl, _⟩ := ih (n / b) (Nat.digitChar (n % b) :: ds)
      refine ⟨l ++ [Nat.digitChar (n % b)], ?_, fun _ => by simp⟩
      simp [h, hl]

theorem digitChar_zero {m : Nat} (hm : m < 10) (h : Nat.digitChar m = '0') :
    m = 0 := by
  interval_cases m <;> revert h <;> decide

/-- The decimal numeral of a positive natural is never the string "0". -/
theorem repr_pos_ne_zero {n : Nat} (h : 0 < n) : Nat.repr n ≠ "0" := by
  intro heq
  have hdata : Nat.toDigits 10 n = ['0'] := by
    have := congrArg String.data heq
    simpa [Nat.repr, List.asString] using this
  unfold Nat.toDigits Nat.toDigitsCore at hdata
  by_cases hdiv : n / 10 = 0
  · simp [hdiv] at hdata
    have hmod : n % 10 = 0 := digitChar_zero (Nat.mod_lt _ (by omega)) hdata
    omega
  · simp [hdiv] at hdata
    obtain ⟨l, hl, hne⟩ := toDigitsCore_shape 10 n (n / 10) [Nat.digitChar (n % 10)]
    rw [hl] at hdata
    have hlen : l.length + 1 = 1 := by
      have := congrArg List.length hdata
      simpa using this
    exact hne h (List.length_eq_zero.mp (by omega))

theorem toString_pos_ne_zero {n : Nat} (h : 0 < n) : toString n ≠ "0" :=
  repr_pos_ne_zero h

/-- C3: when the remote, branch and upstream queries succeed, a rev-list
count of "N" with N > 0 makes the remote comparison report
`needsPull = true` with description "N commits behind" (exact count
substituted), and a count of "0" makes it report `needsPull = false` with
description "Up to date". -/
theorem claim3_behind_count (st : GitStatus) (env : GitEnv) (ro bo uo : String)
    (hremote : env.remoteOut = .ok ro) (hro : goTrim ro ≠ "")
    (hbranch : env.branchOut = .ok bo) (hbo : goTrim bo ≠ "")
    (hup : env.upstreamOut = .ok uo) :
    (∀ (co : String) (n : Nat), env.behindOut = .ok co → goTrim co = toString n →
        0 < n →
        (checkRemoteStatus st env).needsPull = true ∧
        (checkRemoteStatus st env).remoteStatus = toString n ++ " commits behind") ∧
    (∀ co : String, env.behindOut = .ok co → goTrim co = "0" →
        (checkRemoteStatus st env).needsPull = false ∧
        (checkRemoteStatus st env).remoteStatus = "Up to date") := by
  constructor
  · intro co n hco hn hpos
    have hne : toString n ≠ "0" := toString_pos_ne_zero hpos
    simp [checkRemoteStatus, hremote, hro, hbranch, hbo, hup, hco, hn, hne]
  · intro co hco h0
    simp [checkRemoteStatus, hremote, hro, hbranch, hbo, hup, hco, h0]

/-- C3 witness: the concrete three-commits-behind repository. -/
theorem claim3_witness :
    (checkRemoteStatus {} envBehind3).needsPull = true ∧
    (checkRemoteStatus {} envBehind3).remoteStatus = "3 commits behind" :=
  (claim3_behind_count {} envBehind3 "origin\n" "main\n" "origin/main\n"
      rfl (by decide) rfl (by decide) rfl).1 "3\n" 3 rfl (by decide) (by decide)

/-! ## C4: no remote configured (corrected)

The claim asserts that the no-remote result carries a description
indicating no remote.  In the code the early return of `checkRemoteStatus`
leaves `RemoteStatus` at its zero value: the description is the empty
string, so no descriptive text indicating the no-remote state is ever
produced (the state is carried by `hasRemote = false` alone). -/

/-- C4 counterexample: a concrete repository whose `git remote` output is
empty.  `hasRemote` and `needsPull` are `false` as claimed, but the
remote-state description is the empty string — there is no description
"indicating no remote", refuting that conjunct of the claim. -/
theorem claim4_counterexample :
    (checkGitStatus "/r" envNoRemote).hasRemote = false ∧
    (checkGitStatus "/r" envNoRemote).needsPull = false ∧
    (checkGitStatus "/r" envNoRemote).remoteStatus = "" ∧
    ¬ (checkGitStatus "/r" envNoRemote).remoteStatus ≠ "" := by
  decide

/-- C4 (amended): for every repository with no remote configured (the
remote-listing command failing or producing empty output), the
remote-comparison result has `hasRemote = false` and `needsPull = false`
and leaves the description empty (the no-remote state is indicated by
`hasRemote = false` alone), and none of the no-remotes, no-upstream or
command-failure cases of the remote check sets the repository's error
flag. -/
theorem claim4_no_remote_amended (path : String) (env : GitEnv) (out : String)
    (hgit : env.gitDirExists = true) (hstatus : env.statusOut = .ok out)
    (hnorem : (∃ e, env.remoteOut = .error e) ∨
      ∃ ro, env.remoteOut = .ok ro ∧ goTrim ro = "") :
    (checkGitStatus path env).hasRemote = false ∧
    (checkGitStatus path env).needsPull = false ∧
    (checkGitStatus path env).remoteStatus = "" ∧
    (checkGitStatus path env).hasError = false ∧
    ∀ (st : GitStatus) (env' : GitEnv),
      (checkRemoteStatus st env').hasError = st.hasError := by
  have hmain : (checkGitStatus path env).hasRemote = false ∧
      (checkGitStatus path env).needsPull = false ∧
      (checkGitStatus path env).remoteStatus = "" := by
    rcases hnorem with ⟨e, he⟩ | ⟨ro, hro, hroe⟩
    · simp [checkGitStatus, isGitRepository, hgit, hstatus, checkRemoteStatus, he]
    · simp [checkGitStatus, isGitRepository, hgit, hstatus, checkRemoteStatus, hro, hroe]
  refine ⟨hmain.1, hmain.2.1, hmain.2.2, ?_, fun st env' => checkRemoteStatus_hasError st env'⟩
  simp [checkGitStatus, isGitRepository, hgit, hstatus, checkRemoteStatus_hasError]

/-- C4 witness: the concrete no-remote repository. -/
theorem claim4_witness :
    (checkGitStatus "/nr" envNoRemote).hasRemote = false ∧
    (checkGitStatus "/nr" envNoRemote).needsPull = false ∧
    (checkGitStatus "/nr" envNoRemote).hasError = false :=
  ⟨(claim4_no_remote_amended "/nr" envNoRemote "" rfl rfl
      (Or.inr ⟨"", rfl, by decide⟩)).1,
   (claim4_no_remote_amended "/nr" envNoRemote "" rfl rfl
      (Or.inr ⟨"", rfl, by decide⟩)).2.1,
   (claim4_no_remote_amended "/nr" envNoRemote "" rfl rfl
      (Or.inr ⟨"", rfl, by decide⟩)).2.2.2.1⟩

/-! ## C1: atomic completion of a refresh -/

/-- Preservation of the refresh invariant by one critical section of
`fetchRemotesAsync`'s worker phase: repositories still flagged as fetching
hold their pre-refresh snapshot, completed ones hold exactly the new probe
result. -/
theorem workerStep_preserves_inv
    (repos : List String) (env : String → GitEnv) (st₀ : AppState)
    {a b : AppState} (step : WorkerStep repos env a b)
    (ihnodup : a.fetchingRepos.Nodup)
    (ihr : ∀ r ∈ repos,
      (r ∈ a.fetchingRepos →
        mapLookup a.gitStatuses r = mapLookup st₀.gitStatuses r) ∧
      (r ∉ a.fetchingRepos →
        mapLookup a.gitStatuses r = some (checkGitStatus r (env r)))) :
    b.fetchingRepos.Nodup ∧
    ∀ r ∈ repos,
      (r ∈ b.fetchingRepos →
        mapLookup b.gitStatuses r = mapLookup st₀.gitStatuses r) ∧
      (r ∉ b.fetchingRepos →
        mapLookup b.gitStatuses r = some (checkGitStatus r (env r))) := by
  cases step with
  | finish => exact ⟨ihnodup, ihr⟩
  | work r' hr' hf' =>
    refine ⟨ihnodup.erase _, fun r hr => ⟨?_, ?_⟩⟩
    · intro hmem
      have hner : r ≠ r' := (ihnodup.mem_erase_iff.mp hmem).1
      have hmem' : r ∈ a.fetchingRepos := (ihnodup.mem_erase_iff.mp hmem).2
      show mapLookup (mapInsert a.gitStatuses r' _) r = _
      rw [mapLookup_insert_other _ _ _ _ hner]
      exact (ihr r hr).1 hmem'
    · intro hnot
      by_cases hner : r = r'
      · subst hner
        exact mapLookup_insert_self _ _ _
      · show mapLookup (mapInsert a.gitStatuses r' _) r = _
        rw [mapLookup_insert_other _ _ _ _ hner]
        refine (ihr r hr).2 ?_
        intro hmem'
        exact hnot (ihnodup.mem_erase_iff.mpr ⟨hner, hmem'⟩)

/-- C1: in every state reachable by interleaving the workers' atomic
critical sections (each one writes the new snapshot and clears the
repository's flag together, as the code does under one `a.mu.Lock()`), a
reader sees the new snapshot exactly for the repositories whose refreshing
flag is cleared — never the new snapshot paired with a still-set flag, nor
a cleared flag without the snapshot written. -/
theorem claim1_complete_refresh_atomic
    (repos : List String) (env : String → GitEnv) (st₀ st : AppState)
    (hflag : ∀ r ∈ repos, r ∈ st₀.fetchingRepos)
    (hnodup : st₀.fetchingRepos.Nodup)
    (hold : ∀ r ∈ repos, mapLookup st₀.gitStatuses r ≠ some (checkGitStatus r (env r)))
    (hreach : Relation.ReflTransGen (WorkerStep repos env) st₀ st) :
    ∀ r ∈ repos,
      (mapLookup st.gitStatuses r = some (checkGitStatus r (env r)) ↔
        r ∉ st.fetchingRepos) := by
  have inv : st.fetchingRepos.Nodup ∧
      ∀ r ∈ repos,
        (r ∈ st.fetchingRepos →
          mapLookup st.gitStatuses r = mapLookup st₀.gitStatuses r) ∧
        (r ∉ st.fetchingRepos →
          mapLookup st.gitStatuses r = some (checkGitStatus r (env r))) := by
    induction hreach with
    | refl =>
      exact ⟨hnodup, fun r hr =>
        ⟨fun _ => rfl, fun hnot => absurd (hflag r hr) hnot⟩⟩
    | tail hsteps step ih =>
      exact workerStep_preserves_inv repos env st₀ step ih.1 ih.2
  intro r hr
  obtain ⟨-, hinv⟩ := inv
  obtain ⟨holdst, hnewst⟩ := hinv r hr
  constructor
  · intro hlook hmem
    rw [holdst hmem] at hlook
    exact hold r hr hlook
  · exact hnewst

/-- C1 witness: one repository, one worker step from the state in which the
batch was marked fetching. -/
theorem claim1_witness :
    mapLookup (refreshWorker (fun _ => envNoRemote) "/a"
        (beginAll ["/a"]
          { gitStatuses := [], fetchingRepos := [], isFetching := true })).gitStatuses "/a"
      = some (checkGitStatus "/a" envNoRemote) ↔
    "/a" ∉ (refreshWorker (fun _ => envNoRemote) "/a"
        (beginAll ["/a"]
          { gitStatuses := [], fetchingRepos := [], isFetching := true })).fetchingRepos :=
  claim1_complete_refresh_atomic ["/a"] (fun _ => envNoRemote)
    (beginAll ["/a"] { gitStatuses := [], fetchingRepos := [], isFetching := true }) _
    (by intro r hr; simpa [beginAll, setInsert] using hr)
    (by decide)
    (by intro r hr; simp [beginAll, mapLookup])
    (Relation.ReflTransGen.single
      (WorkerStep.work "/a" _ (by decide) (by decide)))
    "/a" (by decide)

/-! ## C8: configuration loading -/

/-- C8: `loadConfig` tries the current-directory file first and then the
home-directory file, using the first candidate that both reads and parses
successfully (applied to the default configuration by `json.Unmarshal`'s
merging); when no candidate does, it returns the default configuration
(empty repository list, command "lazygit"); and it always returns a `nil`
error rather than terminating startup. -/
theorem claim8_load_config (parse : String → Option ConfigDoc) (env : ConfigEnv) :
    (∀ data doc, env.cwdFile = some data → parse data = some doc →
        loadConfig parse env =
          .ok (unmarshalInto { repositories := [], enterCommandBinary := "lazygit" } doc)) ∧
    (∀ data doc,
        (env.cwdFile = none ∨ ∃ d, env.cwdFile = some d ∧ parse d = none) →
        env.homeFile = some data → parse data = some doc →
        loadConfig parse env =
          .ok (unmarshalInto { repositories := [], enterCommandBinary := "lazygit" } doc)) ∧
    ((env.cwdFile = none ∨ ∃ d, env.cwdFile = some d ∧ parse d = none) →
     (env.homeFile = none ∨ ∃ d, env.homeFile = some d ∧ parse d = none) →
        loadConfig parse env =
          .ok { repositories := [], enterCommandBinary := "lazygit" }) ∧
    (∃ c, loadConfig parse env = .ok c) := by
  refine ⟨?_, ?_, ?_, ⟨_, rfl⟩⟩
  · intro data doc hc hp
    simp [loadConfig, loadConfigFrom, hc, hp]
  · intro data doc hcwd hh hp
    rcases hcwd with h | ⟨d, hd, hpd⟩
    · simp [loadConfig, loadConfigFrom, h, hh, hp]
    · simp [loadConfig, loadConfigFrom, hd, hpd, hh, hp]
  · intro hcwd hhome
    rcases hcwd with h | ⟨d, hd, hpd⟩ <;> rcases hhome with h2 | ⟨d2, hd2, hpd2⟩ <;>
      simp [loadConfig, loadConfigFrom, *]

/-- C8 witness: both candidates missing yields the defaults. -/
theorem claim8_witness :
    loadConfig (fun _ => none) { cwdFile := none, homeFile := none } =
      .ok { repositories := [], enterCommandBinary := "lazygit" } :=
  (claim8_load_config (fun _ => none)
      { cwdFile := none, homeFile := none }).2.2.1 (Or.inl rfl) (Or.inl rfl)

/-! ## C9: duplicate add is a no-op -/

/-- C9: when the absolute form of the path to add equals the absolute form
of some configured repository, the CLI add command leaves the repository
list unchanged (the loaded config is returned as is and never saved),
reports "Repository already exists" as an informational message rather
than an error, and the process exits with code 0.  `hidem` records that
`filepath.Abs` is idempotent. -/
theorem claim9_duplicate_add_noop (env : CLIEnv) (path a : String) (c : Config)
    (habs : env.abs path = some a)
    (hidem : ∀ p, absOf env.abs (absOf env.abs p) = absOf env.abs p)
    (hload : loadConfig env.parse env.configFiles = .ok c)
    (hdir : env.dirExists a = true) (hgit : env.gitDirExists a = true)
    (hdup : ∃ r ∈ c.repositories, absOf env.abs r = absOf env.abs path) :
    addRepositoryFromCommandLine env path =
      .ok (c, "Repository already exists: " ++ a) ∧
    addCommandExitCode env path = 0 := by
  have hapath : absOf env.abs path = a := by simp [absOf, habs]
  have haa : absOf env.abs a = a := by
    calc absOf env.abs a = absOf env.abs (absOf env.abs path) := by rw [hapath]
    _ = absOf env.abs path := hidem path
    _ = a := hapath
  have hany : (c.repositories.any fun repo => absOf env.abs repo = absOf env.abs a) = true := by
    rw [List.any_eq_true]
    obtain ⟨r, hrmem, hr⟩ := hdup
    exact ⟨r, hrmem, by simp [hr, hapath, haa]⟩
  have hadd : addRepositoryWithPath env.abs c a = (c, false) := by
    simp [addRepositoryWithPath, hany]
  have hmain : addRepositoryFromCommandLine env path =
      .ok (c, "Repository already exists: " ++ a) := by
    simp [addRepositoryFromCommandLine, hload, habs, hdir, hgit, hadd]
  exact ⟨hmain, by simp [addCommandExitCode, hmain]⟩



/-- C9 witness: adding "/repo" when "/repo" is already configured. -/
theorem claim9_witness :
    addRepositoryFromCommandLine cliEnvDup "/repo" =
      .ok ({ repositories := ["/repo"], enterCommandBinary := "lazygit" },
        "Repository already exists: /repo") ∧
    addCommandExitCode cliEnvDup "/repo" = 0 :=
  claim9_duplicate_add_noop cliEnvDup "/repo" "/repo"
    { repositories := ["/repo"], enterCommandBinary := "lazygit" }
    rfl (fun _ => rfl) rfl rfl rfl ⟨"/repo", by decide, rfl⟩

/-! ## C10: add followed by remove restores the list -/

/-- `removeRepository`'s scan deletes exactly the appended last element
when nothing before it matches, preserving the prefix. -/
theorem removeMatch_append (abs : String → Option String) (a x : String)
    (hx : absOf abs x = a) :
    ∀ l : List String, (∀ r ∈ l, absOf abs r ≠ a) →
      removeMatch abs a (l ++ [x]) = some l := by
  intro l
  induction l with
  | nil =>
    intro h
    simp [removeMatch, hx]
  | cons y ys ih =>
    intro h
    have hy : absOf abs y ≠ a := h y (by simp)
    simp [removeMatch, hy, ih (fun r hr => h r (by simp [hr]))]

/-- C10: for a path whose absolute form is not already configured, the add
operation appends exactly that absolute path at the end, and the remove
operation with the same path then deletes exactly that element, restoring
the configuration to its original value (order of the remaining entries
preserved).  `hidem` records that `filepath.Abs` is idempotent. -/
theorem claim10_add_remove_roundtrip (abs : String → Option String) (c : Config)
    (path : String)
    (hidem : ∀ p, absOf abs (absOf abs p) = absOf abs p)
    (hnew : ∀ r ∈ c.repositories, absOf abs r ≠ absOf abs path) :
    (addRepositoryWithPath abs c path).1.repositories =
      c.repositories ++ [absOf abs path] ∧
    removeRepository abs (addRepositoryWithPath abs c path).1 path = (c, true) := by
  have hany : (c.repositories.any fun repo => absOf abs repo = absOf abs path) = false := by
    rw [List.any_eq_false]
    intro r hr
    simp [hnew r hr]
  have hadd : addRepositoryWithPath abs c path =
      ({ c with repositories := c.repositories ++ [absOf abs path] }, true) := by
    simp [addRepositoryWithPath, hany]
  refine ⟨by rw [hadd], ?_⟩
  rw [hadd]
  have hrm : removeMatch abs (absOf abs path)
      (c.repositories ++ [absOf abs path]) = some c.repositories :=
    removeMatch_append abs _ _ (hidem path) c.repositories hnew
  simp [removeRepository, hrm]

/-- C10 witness: adding then removing "/b" next to a configured "/a". -/
theorem claim10_witness :
    (addRepositoryWithPath (fun s => some s)
        { repositories := ["/a"], enterCommandBinary := "lazygit" } "/b").1.repositories =
      ["/a", "/b"] ∧
    removeRepository (fun s => some s)
        (addRepositoryWithPath (fun s => some s)
          { repositories := ["/a"], enterCommandBinary := "lazygit" } "/b").1 "/b" =
      ({ repositories := ["/a"], enterCommandBinary := "lazygit" }, true) :=
  have h := claim10_add_remove_roundtrip (fun s => some s)
    { repositories := ["/a"], enterCommandBinary := "lazygit" } "/b"
    (fun _ => rfl)
    (by intro r hr; rw [List.mem_singleton] at hr; subst hr; decide)
  ⟨h.1, h.2⟩
